import Mathlib

/-
Verification of the automation-agent core of `src/main.py`.

The embedding is shallow: the Selenium/browser world is an explicit
environment value.  Each external call the Python code makes (element
lookup, session validity probe, session creation, navigation, refresh,
typing, clicking) is answered by a field of that environment, and the
Python control flow — including which `try/except` handler catches which
raise — is reproduced as Lean case analysis.  Sessions are identified by
natural numbers handed out by a counter; a quit session is recorded in the
world state and is always reported invalid afterwards (after
`driver.quit()` the remote session is gone, so `driver.current_url`
raises and `is_driver_valid` returns false).
-/

namespace EmailAgent

/-- Locator kind inferred from a selector string (src/main.py line 234):
XPath when it starts with `//`, `.//` or `(`, CSS otherwise. -/
inductive LocKind
  | xpath
  | css
deriving DecidableEq

/-- Outcome of one `driver.find_element` plus `element.is_displayed()` probe
for one selector, as decided by the live page: the element was found (with
its displayed bit), the lookup raised `NoSuchElementException` or
`ElementNotInteractableException` (caught by the inner handler,
src/main.py lines 239 and 247), or some other exception was raised
(caught by the outer `except Exception: continue`, line 249). -/
inductive LookupOutcome
  | found (elem : Nat) (displayed : Bool)
  | missing
  | error
deriving DecidableEq

/-- Selector-kind dispatch of src/main.py line 234. -/
def selKind (s : String) : LocKind :=
  if s.startsWith "//" || s.startsWith ".//" || s.startsWith "(" then LocKind.xpath
  else LocKind.css

/-- Shallow embedding of `find_element_by_selectors` (src/main.py 227-251):
iterate the chain in order, skip empty entries, dispatch on the inferred
kind, return the first element that was found and is displayed; every
lookup failure moves on to the next candidate; exhaustion yields `none`
(the Python `(None, None, None)`). -/
def find_element_by_selectors (env : LocKind → String → LookupOutcome) :
    List String → Option (Nat × String × LocKind)
  | [] => none
  | s :: rest =>
    if s = "" then find_element_by_selectors env rest
    else
      match env (selKind s) s with
      | LookupOutcome.found e true => some (e, s, selKind s)
      | _ => find_element_by_selectors env rest

/-- A candidate yields a visible match: it is nonempty and its kind's lookup
finds a displayed element. -/
def visMatch (env : LocKind → String → LookupOutcome) (s : String) : Prop :=
  s ≠ "" ∧ ∃ e, env (selKind s) s = LookupOutcome.found e true

lemma find_cons_skip (env : LocKind → String → LookupOutcome) (rest : List String) :
    find_element_by_selectors env ("" :: rest) = find_element_by_selectors env rest := by
  simp [find_element_by_selectors]

lemma find_cons_vis (env : LocKind → String → LookupOutcome) (s : String)
    (rest : List String) (hs : s ≠ "") (e : Nat)
    (he : env (selKind s) s = LookupOutcome.found e true) :
    find_element_by_selectors env (s :: rest) = some (e, s, selKind s) := by
  simp [find_element_by_selectors, hs, he]

lemma find_cons_novis (env : LocKind → String → LookupOutcome) (s : String)
    (rest : List String) (h : ¬ visMatch env s) :
    find_element_by_selectors env (s :: rest) = find_element_by_selectors env rest := by
  by_cases hs : s = ""
  · subst hs; simp [find_element_by_selectors]
  · cases he : env (selKind s) s with
    | found e d =>
      cases d with
      | true => exact absurd ⟨hs, e, he⟩ h
      | false => simp [find_element_by_selectors, hs, he]
    | missing => simp [find_element_by_selectors, hs, he]
    | error => simp [find_element_by_selectors, hs, he]

lemma find_none_iff (env : LocKind → String → LookupOutcome) :
    ∀ sels : List String,
      find_element_by_selectors env sels = none ↔ ∀ s ∈ sels, ¬ visMatch env s := by
  intro sels
  induction sels with
  | nil => simp [find_element_by_selectors]
  | cons s rest ih =>
    by_cases hv : visMatch env s
    · obtain ⟨hs, e, he⟩ := hv
      rw [find_cons_vis env s rest hs e he]
      simp only [List.mem_cons]
      constructor
      · intro h; cases h
      · intro h
        exact absurd ⟨hs, e, he⟩ (h s (Or.inl rfl))
    · rw [find_cons_novis env s rest hv, ih]
      constructor
      · intro h t ht
        rcases List.mem_cons.mp ht with h1 | h2
        · subst h1; exact hv
        · exact h t h2
      · intro h t ht
        exact h t (List.mem_cons_of_mem s ht)

lemma find_some_iff (env : LocKind → String → LookupOutcome) :
    ∀ (sels : List String) (e : Nat) (s : String) (k : LocKind),
      find_element_by_selectors env sels = some (e, s, k) ↔
        s ≠ "" ∧ k = selKind s ∧ env (selKind s) s = LookupOutcome.found e true ∧
          ∃ pre post, sels = pre ++ s :: post ∧ ∀ t ∈ pre, ¬ visMatch env t := by
  intro sels
  induction sels with
  | nil =>
    intro e s k
    simp only [find_element_by_selectors]
    constructor
    · intro h; cases h
    · rintro ⟨-, -, -, pre, post, hdec, -⟩
      exact absurd hdec (by simp)
  | cons s0 rest ih =>
    intro e s k
    by_cases hv : visMatch env s0
    · obtain ⟨hs0, e0, he0⟩ := hv
      rw [find_cons_vis env s0 rest hs0 e0 he0]
      constructor
      · intro h
        obtain ⟨he, hs, hk⟩ : e0 = e ∧ s0 = s ∧ selKind s0 = k := by
          have h1 := Option.some.inj h
          exact ⟨congrArg Prod.fst h1, congrArg Prod.fst (congrArg Prod.snd h1),
                 congrArg Prod.snd (congrArg Prod.snd h1)⟩
        subst he; subst hs; subst hk
        exact ⟨hs0, rfl, he0, [], rest, rfl, by simp⟩
      · rintro ⟨hs, hk, he, pre, post, hdec, hpre⟩
        cases pre with
        | nil =>
          have hss : s0 = s := (List.cons.inj (by simpa using hdec)).1
          subst hss
          have : e0 = e := by
            have := he0.symm.trans he
            exact (LookupOutcome.found.inj this).1
          subst this; subst hk; rfl
        | cons t pre2 =>
          have ht : t = s0 := ((List.cons.inj (by simpa using hdec)).1).symm
          subst ht
          exact absurd ⟨hs0, e0, he0⟩ (hpre t (List.mem_cons_self t pre2))
    · rw [find_cons_novis env s0 rest hv, ih e s k]
      constructor
      · rintro ⟨hs, hk, he, pre, post, hdec, hpre⟩
        refine ⟨hs, hk, he, s0 :: pre, post, by simp [hdec], ?_⟩
        intro t ht
        rcases List.mem_cons.mp ht with h1 | h2
        · subst h1; exact hv
        · exact hpre t h2
      · rintro ⟨hs, hk, he, pre, post, hdec, hpre⟩
        cases pre with
        | nil =>
          have hss : s0 = s := (List.cons.inj (by simpa using hdec)).1
          subst hss
          exact absurd ⟨hs, e, he⟩ hv
        | cons t pre2 =>
          obtain ⟨ht, htl⟩ := List.cons.inj (by simpa using hdec)
          exact ⟨hs, hk, he, pre2, post, htl, fun u hu =>
            hpre u (List.mem_cons_of_mem t hu)⟩

/-- C1: the Selector Resolver iterates candidates in order, skips empty
entries, dispatches each candidate to its inferred locator kind, accepts
only displayed elements, and returns the first visible match together with
the matched candidate and its kind; exhausting the chain yields the
not-found value `none`.  (The Python function swallows every per-candidate
lookup failure; the embedding is a total function, so no execution raises.) -/
theorem resolver_first_visible_match
    (env : LocKind → String → LookupOutcome) (sels : List String) :
    (find_element_by_selectors env sels = none ↔ ∀ s ∈ sels, ¬ visMatch env s) ∧
    (∀ (e : Nat) (s : String) (k : LocKind),
      find_element_by_selectors env sels = some (e, s, k) ↔
        s ≠ "" ∧ k = selKind s ∧ env (selKind s) s = LookupOutcome.found e true ∧
          ∃ pre post, sels = pre ++ s :: post ∧ ∀ t ∈ pre, ¬ visMatch env t) :=
  ⟨find_none_iff env sels, fun e s k => find_some_iff env sels e s k⟩

/-- Session-allocation world: `nextId` numbers sessions created so far,
`quit` lists the session ids on which `driver.quit()` has been called. -/
structure World where
  nextId : Nat
  quit : List Nat
deriving DecidableEq

/-- Class of a raised Python exception where the distinction matters:
`TimeoutException` (src/main.py line 384 handler) versus everything else
(line 388 handler). -/
inductive ExKind
  | timeout
  | other
deriving DecidableEq

/-- Outcome of one `create_driver` call: a fresh session, or a raise of the
given class. -/
inductive CreateRes
  | ok
  | fail (k : ExKind)
deriving DecidableEq

/-- Outcome status of one job's log entry (src/main.py 282-287: entries
start as `processing` and are set to `success` or `failed` on return). -/
inductive Status
  | processing
  | success
  | failed
deriving DecidableEq

/-- Observable events of one run: session creations (and raising creation
attempts), `driver.quit()` calls, full navigations `driver.get(url)`,
`driver.refresh()` calls, and the four per-job submission steps. -/
inductive Ev
  | create (i : Nat)
  | createFail
  | quitEv (i : Nat)
  | getUrl (i : Nat)
  | refresh (i : Nat)
  | findEmailStep
  | typeStep
  | findSubmitStep
  | clickStep
deriving DecidableEq

/-- Environment for one job: the answers of the outside world to each
external call `process_email_automation` can make, in program order.
`lookup1`/`lookup2` answer the per-selector probes of the two
`find_element_by_selectors` calls; the `valid*` bits answer the
`is_driver_valid` probes (for a session that has not been quit — a quit
session is always invalid); `none` for a navigation field means the call
returned, `some k` that it raised an exception of class `k`. -/
structure JobEnv where
  lookup1 : LocKind → String → LookupOutcome
  lookup2 : LocKind → String → LookupOutcome
  validAtStart : Bool
  create1 : CreateRes
  navGet1 : Option ExKind
  refreshRes : Option ExKind
  navGet2 : Option ExKind
  validAtNavFail : Bool
  create2 : CreateRes
  navRetry : Option ExKind
  typeRes : Option ExKind
  clickRes : Option ExKind
  validAtOuterErr : Bool

/-- Result of one `process_email_automation` call: final log status, the
returned driver handle (src/main.py line 400 — possibly `None`, line 395),
the world after the job, the event trace, and the effective
`is_first_email` value in force when navigation was attempted (`none` when
the job returned before any navigation). -/
structure JobRes where
  status : Status
  driver : Option Nat
  world : World
  trace : List Ev
  usedFirst : Option Bool
deriving DecidableEq

/-- `is_driver_valid` (src/main.py 253-262) for a non-`None` handle: the
`driver.current_url` probe succeeds only if the session was never quit and
the environment reports it alive. -/
def dvalidSome (w : World) (i : Nat) (alive : Bool) : Bool :=
  !(decide (i ∈ w.quit)) && alive

/-- `is_driver_valid` (src/main.py 253-262): `None` is invalid; otherwise
probe the session.  Never raises. -/
def is_driver_valid (w : World) (d : Option Nat) (alive : Bool) : Bool :=
  match d with
  | none => false
  | some i => dvalidSome w i alive

/-- Steps after a successful navigation (src/main.py 330-382): settle wait,
resolve the email input, clear-and-type, resolve the submit control,
scroll-and-click, wait the courtesy delay, mark success.  Each failure
marks the job failed and returns the current handle unchanged (inner
handlers at lines 336, 350, 359, 372). -/
def mainPhase (es ss : List String) (env : JobEnv) (w : World) (i : Nat)
    (uf : Bool) (tr : List Ev) : JobRes :=
  match find_element_by_selectors env.lookup1 es with
  | none => ⟨Status.failed, some i, w, tr ++ [Ev.findEmailStep], some uf⟩
  | some _ =>
    match env.typeRes with
    | some _ => ⟨Status.failed, some i, w,
        tr ++ [Ev.findEmailStep, Ev.typeStep], some uf⟩
    | none =>
      match find_element_by_selectors env.lookup2 ss with
      | none => ⟨Status.failed, some i, w,
          tr ++ [Ev.findEmailStep, Ev.typeStep, Ev.findSubmitStep], some uf⟩
      | some _ =>
        match env.clickRes with
        | some _ => ⟨Status.failed, some i, w,
            tr ++ [Ev.findEmailStep, Ev.typeStep, Ev.findSubmitStep, Ev.clickStep],
            some uf⟩
        | none => ⟨Status.success, some i, w,
            tr ++ [Ev.findEmailStep, Ev.typeStep, Ev.findSubmitStep, Ev.clickStep],
            some uf⟩

/-- Navigation-failure recovery (src/main.py 312-328): quit the current
session if it still answers as valid, create a replacement (a raise here
propagates to the outer handlers at lines 384/388, where `ch` —
`driver_created_here` — decides whether the handle may be nulled), then
retry `driver.get(url)` exactly once; if the retry raises, the job is
marked failed and the executor returns the replacement handle (line 328). -/
def recover (es ss : List String) (env : JobEnv) (w : World) (i : Nat)
    (ch : Bool) (uf : Bool) (tr : List Ev) : JobRes :=
  let doQuit := dvalidSome w i env.validAtNavFail
  let w1 : World := if doQuit then ⟨w.nextId, i :: w.quit⟩ else w
  let tr1 := if doQuit then tr ++ [Ev.quitEv i] else tr
  match env.create2 with
  | CreateRes.ok =>
    let nid := w1.nextId
    let w2 : World := ⟨w1.nextId + 1, w1.quit⟩
    let tr2 := tr1 ++ [Ev.create nid, Ev.getUrl nid]
    match env.navRetry with
    | none => mainPhase es ss env w2 nid uf tr2
    | some _ => ⟨Status.failed, some nid, w2, tr2, some uf⟩
  | CreateRes.fail ExKind.timeout =>
    ⟨Status.failed, some i, w1, tr1 ++ [Ev.createFail], some uf⟩
  | CreateRes.fail ExKind.other =>
    ⟨Status.failed,
     if ch && !(dvalidSome w1 i env.validAtOuterErr) then none else some i,
     w1, tr1 ++ [Ev.createFail], some uf⟩

/-- Navigation (src/main.py 299-328): full `driver.get(url)` when
`is_first_email` is in force, else `driver.refresh()` with a `driver.get`
fallback; any raise enters the recovery path. -/
def navPhase (es ss : List String) (env : JobEnv) (w : World) (i : Nat)
    (uf : Bool) (ch : Bool) (tr : List Ev) : JobRes :=
  if uf then
    match env.navGet1 with
    | none => mainPhase es ss env w i true (tr ++ [Ev.getUrl i])
    | some _ => recover es ss env w i ch true (tr ++ [Ev.getUrl i])
  else
    match env.refreshRes with
    | none => mainPhase es ss env w i false (tr ++ [Ev.refresh i])
    | some _ =>
      match env.navGet2 with
      | none => mainPhase es ss env w i false (tr ++ [Ev.refresh i, Ev.getUrl i])
      | some _ => recover es ss env w i ch false (tr ++ [Ev.refresh i, Ev.getUrl i])

/-- Entry when the incoming handle is absent or invalid (src/main.py
291-297): create a session, force `is_first_email := true`; if creation
raises, the outer handlers mark the job failed and return the original
handle unchanged (`driver_created_here` is still false, so the handle is
not nulled). -/
def startCreate (es ss : List String) (env : JobEnv) (w : World)
    (orig : Option Nat) : JobRes :=
  match env.create1 with
  | CreateRes.ok =>
    navPhase es ss env ⟨w.nextId + 1, w.quit⟩ w.nextId true true [Ev.create w.nextId]
  | CreateRes.fail _ => ⟨Status.failed, orig, w, [Ev.createFail], none⟩

/-- Shallow embedding of `process_email_automation` (src/main.py 280-400)
for one job against environment `env`, world `w`, incoming handle `d` and
the caller's `is_first_email` flag. -/
def process (es ss : List String) (env : JobEnv) (w : World) (d : Option Nat)
    (isFirst : Bool) : JobRes :=
  match d with
  | none => startCreate es ss env w none
  | some i =>
    if dvalidSome w i env.validAtStart then navPhase es ss env w i isFirst false []
    else startCreate es ss env w (some i)

/-- Loop state of `run_automation` (src/main.py 446-449): the appended log
entries (value and final status), the two counters, the allocation world,
the accumulated event trace, the emitted progress values `idx + 1`, and the
session handle threaded between jobs. -/
structure RunSt where
  logs : List (String × Status)
  succ : Nat
  fails : Nat
  w : World
  tr : List Ev
  prog : List Nat
  driver : Option Nat
deriving DecidableEq

/-- The processing loop of `run_automation` (src/main.py 452-488): before
each job read the running flag and stop if cleared; otherwise emit
progress, compute `is_first = (idx == 0 or driver is None)`, run the
executor, append its log entry, bump the matching counter and thread the
returned handle to the next job.  `flag idx` is the value the flag has
when read at the top of iteration `idx`. -/
def runLoop (es ss : List String) (envs : Nat → JobEnv) (flag : Nat → Bool) :
    List String → Nat → RunSt → RunSt
  | [], _, st => st
  | e :: rest, idx, st =>
    if flag idx then
      let r := process es ss (envs idx) st.w st.driver ((idx == 0) || (st.driver == none))
      runLoop es ss envs flag rest (idx + 1)
        { logs := st.logs ++ [(e, r.status)]
          succ := st.succ + (if r.status = Status.success then 1 else 0)
          fails := st.fails + (if r.status = Status.success then 0 else 1)
          w := r.world
          tr := st.tr ++ r.trace
          prog := st.prog ++ [idx + 1]
          driver := r.driver }
    else st

/-- Result of a whole run: the final log sequence, counters, the total the
final summary displays (src/main.py line 508 shows `total_emails`, the
length of the input list), progress values, the handle held when the loop
exited, the trace up to loop exit, the full trace including the cleanup
quit, and the final world. -/
structure RunRes where
  logs : List (String × Status)
  succ : Nat
  fails : Nat
  totalDisplayed : Nat
  prog : List Nat
  heldAtExit : Option Nat
  loopTrace : List Ev
  trace : List Ev
  world : World
deriving DecidableEq

/-- Initial loop state (src/main.py 446-449). -/
def initSt : RunSt := ⟨[], 0, 0, ⟨0, []⟩, [], [], none⟩

/-- The `finally` cleanup of `run_automation` (src/main.py 492-499): quit
the held handle if it is present and still valid (`cleanupValid` answers
the `is_driver_valid` probe for a never-quit session); `total` is the
figure the final summary displays as Total Processed (src/main.py 508). -/
def cleanup (st : RunSt) (total : Nat) (cleanupValid : Bool) : RunRes :=
  match st.driver with
  | some i =>
    if dvalidSome st.w i cleanupValid then
      ⟨st.logs, st.succ, st.fails, total, st.prog, some i, st.tr,
       st.tr ++ [Ev.quitEv i], ⟨st.w.nextId, i :: st.w.quit⟩⟩
    else ⟨st.logs, st.succ, st.fails, total, st.prog, some i, st.tr, st.tr, st.w⟩
  | none => ⟨st.logs, st.succ, st.fails, total, st.prog, none, st.tr, st.tr, st.w⟩

/-- Shallow embedding of `run_automation` (src/main.py 402-512): run the
loop from a fresh world with no session, then run the guaranteed cleanup
phase; the final summary reports `emails.length` as the total. -/
def run_automation (es ss : List String) (envs : Nat → JobEnv)
    (flag : Nat → Bool) (emails : List String) (cleanupValid : Bool) : RunRes :=
  cleanup (runLoop es ss envs flag emails 0 initSt) emails.length cleanupValid

/-- Ids of the sessions quit in a trace, in order. -/
def quitsIn : List Ev → List Nat
  | [] => []
  | Ev.quitEv i :: rest => i :: quitsIn rest
  | _ :: rest => quitsIn rest

/-- Ids of the sessions created in a trace, in order. -/
def createsIn : List Ev → List Nat
  | [] => []
  | Ev.create i :: rest => i :: createsIn rest
  | _ :: rest => createsIn rest

/-- Targets of the full navigations (`driver.get`) in a trace, in order. -/
def getsIn : List Ev → List Nat
  | [] => []
  | Ev.getUrl i :: rest => i :: getsIn rest
  | _ :: rest => getsIn rest

/-- The submission-step events of a trace (email lookup, typing, submit
lookup, click), in order. -/
def mainSteps : List Ev → List Ev
  | [] => []
  | Ev.findEmailStep :: rest => Ev.findEmailStep :: mainSteps rest
  | Ev.typeStep :: rest => Ev.typeStep :: mainSteps rest
  | Ev.findSubmitStep :: rest => Ev.findSubmitStep :: mainSteps rest
  | Ev.clickStep :: rest => Ev.clickStep :: mainSteps rest
  | _ :: rest => mainSteps rest

/-- Number of success log entries. -/
def countSucc (l : List (String × Status)) : Nat :=
  (l.filter fun p => decide (p.2 = Status.success)).length

/-- Number of non-success log entries (the Python `else` branch of the
counter update, src/main.py 470-473). -/
def countFail (l : List (String × Status)) : Nat :=
  (l.filter fun p => !(decide (p.2 = Status.success))).length

/-- Number of jobs the loop processes when started at index `idx` with `n`
jobs remaining: it advances while the flag reads true. -/
def procLen (flag : Nat → Bool) : Nat → Nat → Nat
  | _, 0 => 0
  | idx, n + 1 => if flag idx then procLen flag (idx + 1) n + 1 else 0

/-- Whether navigation fails for a job, given the effective
`is_first_email` value: the initial `driver.get` raises, or the refresh
and its `driver.get` fallback both raise. -/
def navFailedB (env : JobEnv) (uf : Bool) : Bool :=
  if uf then env.navGet1.isSome else env.refreshRes.isSome && env.navGet2.isSome

/-- A page on which every lookup finds a displayed element. -/
def lkAll : LocKind → String → LookupOutcome := fun _ _ => LookupOutcome.found 0 true

/-- A page on which every lookup raises not-found. -/
def lkNone : LocKind → String → LookupOutcome := fun _ _ => LookupOutcome.missing

/-- A fully cooperative environment: every probe succeeds. -/
def baseEnv : JobEnv :=
  { lookup1 := lkAll, lookup2 := lkAll,
    validAtStart := true, create1 := CreateRes.ok,
    navGet1 := none, refreshRes := none, navGet2 := none,
    validAtNavFail := true, create2 := CreateRes.ok, navRetry := none,
    typeRes := none, clickRes := none, validAtOuterErr := true }

@[simp]
lemma quitsIn_append (a b : List Ev) : quitsIn (a ++ b) = quitsIn a ++ quitsIn b := by
  induction a with
  | nil => simp [quitsIn]
  | cons e rest ih => cases e <;> simp [quitsIn, ih]

@[simp]
lemma createsIn_append (a b : List Ev) :
    createsIn (a ++ b) = createsIn a ++ createsIn b := by
  induction a with
  | nil => simp [createsIn]
  | cons e rest ih => cases e <;> simp [createsIn, ih]

@[simp]
lemma getsIn_append (a b : List Ev) : getsIn (a ++ b) = getsIn a ++ getsIn b := by
  induction a with
  | nil => simp [getsIn]
  | cons e rest ih => cases e <;> simp [getsIn, ih]

@[simp]
lemma mainSteps_append (a b : List Ev) :
    mainSteps (a ++ b) = mainSteps a ++ mainSteps b := by
  induction a with
  | nil => simp [mainSteps]
  | cons e rest ih => cases e <;> simp [mainSteps, ih]

lemma mem_quitsIn (j : Nat) : ∀ l : List Ev, j ∈ quitsIn l ↔ Ev.quitEv j ∈ l := by
  intro l
  induction l with
  | nil => simp [quitsIn]
  | cons e rest ih => cases e <;> simp [quitsIn, ih]

lemma nodup_of_len_le_one {l : List Nat} (h : l.length ≤ 1) : l.Nodup := by
  match l with
  | [] => exact List.nodup_nil
  | [a] => simp
  | a :: b :: t => simp at h

lemma mainPhase_spec (es ss : List String) (env : JobEnv) (w : World) (i : Nat)
    (uf : Bool) (tr : List Ev) :
    (mainPhase es ss env w i uf tr).world = w ∧
    (mainPhase es ss env w i uf tr).driver = some i ∧
    (mainPhase es ss env w i uf tr).usedFirst = some uf ∧
    (mainPhase es ss env w i uf tr).status ≠ Status.processing ∧
    Ev.findEmailStep ∈ (mainPhase es ss env w i uf tr).trace ∧
    ∃ ext, (mainPhase es ss env w i uf tr).trace = tr ++ ext ∧
      quitsIn ext = [] ∧ createsIn ext = [] ∧ getsIn ext = [] := by
  unfold mainPhase
  rcases find_element_by_selectors env.lookup1 es with - | - <;>
    rcases env.typeRes with - | - <;>
    rcases find_element_by_selectors env.lookup2 ss with - | - <;>
    rcases env.clickRes with - | - <;>
    exact ⟨rfl, rfl, rfl, by simp, by simp, _, rfl, by simp [quitsIn, createsIn, getsIn]⟩

lemma recover_spec (es ss : List String) (env : JobEnv) (w : World) (i : Nat)
    (ch : Bool) (uf : Bool) (tr : List Ev) :
    (recover es ss env w i ch uf tr).usedFirst = some uf ∧
    (recover es ss env w i ch uf tr).status ≠ Status.processing ∧
    (∃ ext, (recover es ss env w i ch uf tr).trace = tr ++ ext) ∧
    quitsIn (recover es ss env w i ch uf tr).trace =
      quitsIn tr ++ (if dvalidSome w i env.validAtNavFail then [i] else []) ∧
    (recover es ss env w i ch uf tr).world.quit =
      (if dvalidSome w i env.validAtNavFail then [i] else []) ++ w.quit := by
  by_cases hdq : dvalidSome w i env.validAtNavFail <;>
  · cases hc : env.create2 with
    | ok =>
      cases hr : env.navRetry with
      | none =>
        have hre : recover es ss env w i ch uf tr =
            mainPhase es ss env
              ⟨(if dvalidSome w i env.validAtNavFail then
                  (⟨w.nextId, i :: w.quit⟩ : World) else w).nextId + 1,
               (if dvalidSome w i env.validAtNavFail then
                  (⟨w.nextId, i :: w.quit⟩ : World) else w).quit⟩
              w.nextId uf
              ((if dvalidSome w i env.validAtNavFail then tr ++ [Ev.quitEv i] else tr)
                ++ [Ev.create w.nextId, Ev.getUrl w.nextId]) := by
          simp [recover, hdq, hc, hr]
        obtain ⟨hw, -, hu, hs, -, ext, htr, hqe, -, -⟩ := mainPhase_spec es ss env
          ⟨(if dvalidSome w i env.validAtNavFail then
              (⟨w.nextId, i :: w.quit⟩ : World) else w).nextId + 1,
           (if dvalidSome w i env.validAtNavFail then
              (⟨w.nextId, i :: w.quit⟩ : World) else w).quit⟩
          w.nextId uf
          ((if dvalidSome w i env.validAtNavFail then tr ++ [Ev.quitEv i] else tr)
            ++ [Ev.create w.nextId, Ev.getUrl w.nextId])
        rw [hre]
        refine ⟨hu, hs, ?_, ?_, ?_⟩
        · exact ⟨(if dvalidSome w i env.validAtNavFail then [Ev.quitEv i] else [])
             ++ [Ev.create w.nextId, Ev.getUrl w.nextId] ++ ext,
             by rw [htr]; simp [hdq]⟩
        · rw [htr]; simp [hqe, quitsIn, hdq]
        · rw [hw]; simp [hdq]
      | some k =>
        have hre : recover es ss env w i ch uf tr =
            ⟨Status.failed, some w.nextId,
             ⟨w.nextId + 1,
              (if dvalidSome w i env.validAtNavFail then
                 (⟨w.nextId, i :: w.quit⟩ : World) else w).quit⟩,
             (if dvalidSome w i env.validAtNavFail then tr ++ [Ev.quitEv i] else tr)
               ++ [Ev.create w.nextId, Ev.getUrl w.nextId], some uf⟩ := by
          simp [recover, hdq, hc, hr]
        rw [hre]
        refine ⟨rfl, by simp, ?_, by simp [quitsIn, hdq], by simp [hdq]⟩
        exact ⟨(if dvalidSome w i env.validAtNavFail then [Ev.quitEv i] else [])
           ++ [Ev.create w.nextId, Ev.getUrl w.nextId], by simp [hdq]⟩
    | fail k =>
      cases k with
      | timeout =>
        have hre : recover es ss env w i ch uf tr =
            ⟨Status.failed, some i,
             (if dvalidSome w i env.validAtNavFail then
                (⟨w.nextId, i :: w.quit⟩ : World) else w),
             (if dvalidSome w i env.validAtNavFail then tr ++ [Ev.quitEv i] else tr)
               ++ [Ev.createFail], some uf⟩ := by
          simp [recover, hdq, hc]
        rw [hre]
        refine ⟨rfl, by simp, ?_, by simp [quitsIn, hdq], by simp [hdq]⟩
        exact ⟨(if dvalidSome w i env.validAtNavFail then [Ev.quitEv i] else [])
           ++ [Ev.createFail], by simp [hdq]⟩
      | other =>
        have hre : recover es ss env w i ch uf tr =
            ⟨Status.failed,
             if ch && !(dvalidSome
                 (if dvalidSome w i env.validAtNavFail then
                    (⟨w.nextId, i :: w.quit⟩ : World) else w) i env.validAtOuterErr)
               then none else some i,
             (if dvalidSome w i env.validAtNavFail then
                (⟨w.nextId, i :: w.quit⟩ : World) else w),
             (if dvalidSome w i env.validAtNavFail then tr ++ [Ev.quitEv i] else tr)
               ++ [Ev.createFail], some uf⟩ := by
          simp [recover, hdq, hc]
        rw [hre]
        refine ⟨rfl, by simp, ?_, by simp [quitsIn, hdq], by simp [hdq]⟩
        exact ⟨(if dvalidSome w i env.validAtNavFail then [Ev.quitEv i] else [])
           ++ [Ev.createFail], by simp [hdq]⟩

lemma navPhase_spec (es ss : List String) (env : JobEnv) (w : World) (i : Nat)
    (uf ch : Bool) (tr : List Ev) :
    (navPhase es ss env w i uf ch tr).usedFirst = some uf ∧
    (navPhase es ss env w i uf ch tr).status ≠ Status.processing ∧
    (∃ ext, (navPhase es ss env w i uf ch tr).trace = tr ++ ext) ∧
    quitsIn (navPhase es ss env w i uf ch tr).trace = quitsIn tr ++
      (if navFailedB env uf && dvalidSome w i env.validAtNavFail then [i] else []) ∧
    (navPhase es ss env w i uf ch tr).world.quit =
      (if navFailedB env uf && dvalidSome w i env.validAtNavFail then [i] else [])
        ++ w.quit ∧
    (Ev.getUrl i ∈ (navPhase es ss env w i uf ch tr).trace ∨
      Ev.refresh i ∈ (navPhase es ss env w i uf ch tr).trace) := by
  cases uf with
  | true =>
    cases h1 : env.navGet1 with
    | none =>
      have hre : navPhase es ss env w i true ch tr =
          mainPhase es ss env w i true (tr ++ [Ev.getUrl i]) := by
        simp [navPhase, h1]
      rw [hre]
      obtain ⟨hw, -, hu, hs, -, ext, htr, hqe, -, -⟩ :=
        mainPhase_spec es ss env w i true (tr ++ [Ev.getUrl i])
      refine ⟨hu, hs, ⟨[Ev.getUrl i] ++ ext, by rw [htr]; simp⟩, ?_, ?_, ?_⟩
      · rw [htr]; simp [hqe, quitsIn, navFailedB, h1]
      · rw [hw]; simp [navFailedB, h1]
      · left; rw [htr]; simp
    | some k =>
      have hre : navPhase es ss env w i true ch tr =
          recover es ss env w i ch true (tr ++ [Ev.getUrl i]) := by
        simp [navPhase, h1]
      rw [hre]
      obtain ⟨hu, hs, ⟨ext, htr⟩, hq, hw⟩ :=
        recover_spec es ss env w i ch true (tr ++ [Ev.getUrl i])
      refine ⟨hu, hs, ⟨[Ev.getUrl i] ++ ext, by rw [htr]; simp⟩, ?_, ?_, ?_⟩
      · rw [hq]; simp [quitsIn, navFailedB, h1]
      · rw [hw]; simp [navFailedB, h1]
      · left; rw [htr]; simp
  | false =>
    cases h1 : env.refreshRes with
    | none =>
      have hre : navPhase es ss env w i false ch tr =
          mainPhase es ss env w i false (tr ++ [Ev.refresh i]) := by
        simp [navPhase, h1]
      rw [hre]
      obtain ⟨hw, -, hu, hs, -, ext, htr, hqe, -, -⟩ :=
        mainPhase_spec es ss env w i false (tr ++ [Ev.refresh i])
      refine ⟨hu, hs, ⟨[Ev.refresh i] ++ ext, by rw [htr]; simp⟩, ?_, ?_, ?_⟩
      · rw [htr]; simp [hqe, quitsIn, navFailedB, h1]
      · rw [hw]; simp [navFailedB, h1]
      · right; rw [htr]; simp
    | some k =>
      cases h2 : env.navGet2 with
      | none =>
        have hre : navPhase es ss env w i false ch tr =
            mainPhase es ss env w i false (tr ++ [Ev.refresh i, Ev.getUrl i]) := by
          simp [navPhase, h1, h2]
        rw [hre]
        obtain ⟨hw, -, hu, hs, -, ext, htr, hqe, -, -⟩ :=
          mainPhase_spec es ss env w i false (tr ++ [Ev.refresh i, Ev.getUrl i])
        refine ⟨hu, hs, ⟨[Ev.refresh i, Ev.getUrl i] ++ ext, by rw [htr]; simp⟩,
          ?_, ?_, ?_⟩
        · rw [htr]; simp [hqe, quitsIn, navFailedB, h1, h2]
        · rw [hw]; simp [navFailedB, h1, h2]
        · left; rw [htr]; simp
      | some k2 =>
        have hre : navPhase es ss env w i false ch tr =
            recover es ss env w i ch false (tr ++ [Ev.refresh i, Ev.getUrl i]) := by
          simp [navPhase, h1, h2]
        rw [hre]
        obtain ⟨hu, hs, ⟨ext, htr⟩, hq, hw⟩ :=
          recover_spec es ss env w i ch false (tr ++ [Ev.refresh i, Ev.getUrl i])
        refine ⟨hu, hs, ⟨[Ev.refresh i, Ev.getUrl i] ++ ext, by rw [htr]; simp⟩,
          ?_, ?_, ?_⟩
        · rw [hq]; simp [quitsIn, navFailedB, h1, h2]
        · rw [hw]; simp [navFailedB, h1, h2]
        · left; rw [htr]; simp

lemma dvalidSome_true {w : World} {i : Nat} {a : Bool}
    (h : dvalidSome w i a = true) : i ∉ w.quit ∧ a = true := by
  simpa [dvalidSome] using h

lemma navPhase_quits (es ss : List String) (env : JobEnv) (w0 : World) (i0 : Nat)
    (uf ch : Bool) (tr : List Ev) (hq : quitsIn tr = []) :
    (∀ j, j ∈ (navPhase es ss env w0 i0 uf ch tr).world.quit ↔
      j ∈ quitsIn (navPhase es ss env w0 i0 uf ch tr).trace ∨ j ∈ w0.quit) ∧
    (∀ j ∈ quitsIn (navPhase es ss env w0 i0 uf ch tr).trace, j ∉ w0.quit) ∧
    (quitsIn (navPhase es ss env w0 i0 uf ch tr).trace).length ≤ 1 ∧
    (∀ j ∈ quitsIn (navPhase es ss env w0 i0 uf ch tr).trace,
      Ev.getUrl j ∈ (navPhase es ss env w0 i0 uf ch tr).trace ∨
      Ev.refresh j ∈ (navPhase es ss env w0 i0 uf ch tr).trace) := by
  obtain ⟨-, -, -, hqt, hwq, hnav⟩ := navPhase_spec es ss env w0 i0 uf ch tr
  rw [hq] at hqt
  simp only [List.nil_append] at hqt
  have hmem : ∀ j, j ∈ quitsIn (navPhase es ss env w0 i0 uf ch tr).trace →
      j = i0 ∧ i0 ∉ w0.quit := by
    intro j hj
    rw [hqt] at hj
    by_cases hc : navFailedB env uf && dvalidSome w0 i0 env.validAtNavFail
    · rw [if_pos hc] at hj
      have hji : j = i0 := by simpa using hj
      exact ⟨hji, (dvalidSome_true (Bool.and_eq_true_iff.mp hc).2).1⟩
    · rw [if_neg hc] at hj
      simp at hj
  refine ⟨?_, ?_, ?_, ?_⟩
  · intro j
    rw [hwq, hqt, List.mem_append]
  · intro j hj
    obtain ⟨hji, hni⟩ := hmem j hj
    exact hji ▸ hni
  · rw [hqt]
    by_cases hc : navFailedB env uf && dvalidSome w0 i0 env.validAtNavFail <;>
      simp [hc]
  · intro j hj
    exact (hmem j hj).1 ▸ hnav

lemma process_spec (es ss : List String) (env : JobEnv) (w : World)
    (d : Option Nat) (isFirst : Bool) :
    (process es ss env w d isFirst).status ≠ Status.processing ∧
    (∀ j, j ∈ (process es ss env w d isFirst).world.quit ↔
      j ∈ quitsIn (process es ss env w d isFirst).trace ∨ j ∈ w.quit) ∧
    (∀ j ∈ quitsIn (process es ss env w d isFirst).trace, j ∉ w.quit) ∧
    (quitsIn (process es ss env w d isFirst).trace).length ≤ 1 ∧
    (∀ j ∈ quitsIn (process es ss env w d isFirst).trace,
      Ev.getUrl j ∈ (process es ss env w d isFirst).trace ∨
      Ev.refresh j ∈ (process es ss env w d isFirst).trace) := by
  have hstart : ∀ orig : Option Nat,
      (startCreate es ss env w orig).status ≠ Status.processing ∧
      (∀ j, j ∈ (startCreate es ss env w orig).world.quit ↔
        j ∈ quitsIn (startCreate es ss env w orig).trace ∨ j ∈ w.quit) ∧
      (∀ j ∈ quitsIn (startCreate es ss env w orig).trace, j ∉ w.quit) ∧
      (quitsIn (startCreate es ss env w orig).trace).length ≤ 1 ∧
      (∀ j ∈ quitsIn (startCreate es ss env w orig).trace,
        Ev.getUrl j ∈ (startCreate es ss env w orig).trace ∨
        Ev.refresh j ∈ (startCreate es ss env w orig).trace) := by
    intro orig
    cases hc : env.create1 with
    | ok =>
      have hre : startCreate es ss env w orig =
          navPhase es ss env ⟨w.nextId + 1, w.quit⟩ w.nextId true true
            [Ev.create w.nextId] := by
        simp [startCreate, hc]
      rw [hre]
      obtain ⟨-, hst, -, -, -, -⟩ :=
        navPhase_spec es ss env ⟨w.nextId + 1, w.quit⟩ w.nextId true true
          [Ev.create w.nextId]
      obtain ⟨h1, h2, h3, h4⟩ :=
        navPhase_quits es ss env ⟨w.nextId + 1, w.quit⟩ w.nextId true true
          [Ev.create w.nextId] (by simp [quitsIn])
      exact ⟨hst, h1, h2, h3, h4⟩
    | fail k =>
      have hre : startCreate es ss env w orig =
          ⟨Status.failed, orig, w, [Ev.createFail], none⟩ := by
        simp [startCreate, hc]
      rw [hre]
      simp [quitsIn]
  cases d with
  | none =>
    have hre : process es ss env w none isFirst = startCreate es ss env w none := by
      simp [process]
    rw [hre]
    exact hstart none
  | some i =>
    by_cases hv : dvalidSome w i env.validAtStart
    · have hre : process es ss env w (some i) isFirst =
          navPhase es ss env w i isFirst false [] := by
        simp [process, hv]
      rw [hre]
      obtain ⟨-, hst, -, -, -, -⟩ := navPhase_spec es ss env w i isFirst false []
      obtain ⟨h1, h2, h3, h4⟩ :=
        navPhase_quits es ss env w i isFirst false [] (by simp [quitsIn])
      exact ⟨hst, h1, h2, h3, h4⟩
    · have hre : process es ss env w (some i) isFirst =
          startCreate es ss env w (some i) := by
        simp [process, hv]
      rw [hre]
      exact hstart (some i)

lemma process_usedFirst (es ss : List String) (env : JobEnv) (w : World)
    (d : Option Nat) (isFirst : Bool) :
    (process es ss env w d isFirst).usedFirst =
      if is_driver_valid w d env.validAtStart then some isFirst
      else
        match env.create1 with
        | CreateRes.ok => some true
        | CreateRes.fail _ => none := by
  have hstart : (startCreate es ss env w d).usedFirst =
      match env.create1 with
      | CreateRes.ok => some true
      | CreateRes.fail _ => none := by
    cases hc : env.create1 with
    | ok =>
      have hre : startCreate es ss env w d =
          navPhase es ss env ⟨w.nextId + 1, w.quit⟩ w.nextId true true
            [Ev.create w.nextId] := by
        simp [startCreate, hc]
      rw [hre]
      exact (navPhase_spec es ss env ⟨w.nextId + 1, w.quit⟩ w.nextId true true
        [Ev.create w.nextId]).1
    | fail k => simp [startCreate, hc]
  cases d with
  | none =>
    have hre : process es ss env w none isFirst = startCreate es ss env w none := by
      simp [process]
    rw [hre, if_neg (by simp [is_driver_valid])]
    simpa using hstart
  | some i =>
    by_cases hv : dvalidSome w i env.validAtStart
    · have hre : process es ss env w (some i) isFirst =
          navPhase es ss env w i isFirst false [] := by
        simp [process, hv]
      rw [hre, if_pos (by simpa [is_driver_valid] using hv)]
      exact (navPhase_spec es ss env w i isFirst false []).1
    · have hre : process es ss env w (some i) isFirst =
          startCreate es ss env w (some i) := by
        simp [process, hv]
      rw [hre, if_neg (by simpa [is_driver_valid] using hv)]
      simpa using hstart

lemma cleanup_fields (st : RunSt) (total : Nat) (cv : Bool) :
    (cleanup st total cv).logs = st.logs ∧
    (cleanup st total cv).succ = st.succ ∧
    (cleanup st total cv).fails = st.fails ∧
    (cleanup st total cv).totalDisplayed = total ∧
    (cleanup st total cv).prog = st.prog ∧
    (cleanup st total cv).heldAtExit = st.driver ∧
    (cleanup st total cv).loopTrace = st.tr := by
  cases hd : st.driver with
  | none => simp [cleanup, hd]
  | some i =>
    by_cases hv : dvalidSome st.w i cv <;> simp [cleanup, hd, hv]

lemma runLoop_logs_len (es ss : List String) (envs : Nat → JobEnv)
    (flag : Nat → Bool) :
    ∀ (emails : List String) (idx : Nat) (st : RunSt),
      (runLoop es ss envs flag emails idx st).logs.length =
        st.logs.length + procLen flag idx emails.length := by
  intro emails
  induction emails with
  | nil => intro idx st; simp [runLoop, procLen]
  | cons e rest ih =>
    intro idx st
    by_cases hf : flag idx
    · simp only [runLoop, hf, if_true, List.length_cons, procLen]
      rw [ih]
      simp
      omega
    · simp [runLoop, hf, procLen]

lemma procLen_le (flag : Nat → Bool) : ∀ (n idx : Nat), procLen flag idx n ≤ n := by
  intro n
  induction n with
  | zero => intro idx; simp [procLen]
  | succ m ih =>
    intro idx
    by_cases hf : flag idx
    · simp only [procLen, hf, if_true]
      exact Nat.succ_le_succ (ih (idx + 1))
    · simp [procLen, hf]

lemma procLen_eq_iff (flag : Nat → Bool) :
    ∀ (n idx : Nat), procLen flag idx n = n ↔ ∀ k < n, flag (idx + k) = true := by
  intro n
  induction n with
  | zero => intro idx; simp [procLen]
  | succ m ih =>
    intro idx
    by_cases hf : flag idx
    · simp only [procLen, hf, if_true]
      rw [Nat.succ_inj, ih (idx + 1)]
      constructor
      · intro h k hk
        cases k with
        | zero => simpa using hf
        | succ k2 =>
          have h2 := h k2 (Nat.lt_of_succ_lt_succ hk)
          have harr : idx + (k2 + 1) = idx + 1 + k2 := by omega
          rw [harr]
          exact h2
      · intro h k hk
        have h2 := h (k + 1) (Nat.succ_lt_succ hk)
        have harr : idx + 1 + k = idx + (k + 1) := by omega
        rw [harr]
        exact h2
    · have hp : procLen flag idx (m + 1) = 0 := by simp [procLen, hf]
      rw [hp]
      constructor
      · intro h
        exact absurd h (by omega)
      · intro h
        exact absurd (h 0 (Nat.succ_pos m)) (by simpa using hf)

lemma procLen_all_true : ∀ (n idx : Nat), procLen (fun _ => true) idx n = n := by
  intro n idx
  exact (procLen_eq_iff (fun _ => true) n idx).mpr (fun k _ => rfl)

lemma countSucc_append (a b : List (String × Status)) :
    countSucc (a ++ b) = countSucc a + countSucc b := by
  simp [countSucc, List.filter_append]

lemma countFail_append (a b : List (String × Status)) :
    countFail (a ++ b) = countFail a + countFail b := by
  simp [countFail, List.filter_append]

lemma countSucc_single (e : String) (s : Status) :
    countSucc [(e, s)] = if s = Status.success then 1 else 0 := by
  by_cases h : s = Status.success <;> simp [countSucc, h]

lemma countFail_single (e : String) (s : Status) :
    countFail [(e, s)] = if s = Status.success then 0 else 1 := by
  by_cases h : s = Status.success <;> simp [countFail, h]

lemma countSucc_add_countFail (l : List (String × Status)) :
    countSucc l + countFail l = l.length := by
  induction l with
  | nil => simp [countSucc, countFail]
  | cons p rest ih =>
    have h1 : p :: rest = [p] ++ rest := rfl
    rw [h1, countSucc_append, countFail_append]
    obtain ⟨e, s⟩ := p
    rw [countSucc_single, countFail_single]
    by_cases h : s = Status.success <;> simp [h] <;> omega

lemma runLoop_counts (es ss : List String) (envs : Nat → JobEnv)
    (flag : Nat → Bool) :
    ∀ (emails : List String) (idx : Nat) (st : RunSt),
      st.succ = countSucc st.logs → st.fails = countFail st.logs →
      (runLoop es ss envs flag emails idx st).succ =
          countSucc (runLoop es ss envs flag emails idx st).logs ∧
        (runLoop es ss envs flag emails idx st).fails =
          countFail (runLoop es ss envs flag emails idx st).logs := by
  intro emails
  induction emails with
  | nil => intro idx st h1 h2; exact ⟨by simpa [runLoop] using h1, by simpa [runLoop] using h2⟩
  | cons e rest ih =>
    intro idx st h1 h2
    by_cases hf : flag idx
    · simp only [runLoop, hf, if_true]
      apply ih
      · simp only [countSucc_append, countSucc_single, ← h1]
      · simp only [countFail_append, countFail_single, ← h2]
    · simp only [runLoop, hf, if_false]
      exact ⟨h1, h2⟩

lemma runLoop_statuses (es ss : List String) (envs : Nat → JobEnv)
    (flag : Nat → Bool) :
    ∀ (emails : List String) (idx : Nat) (st : RunSt),
      (∀ p ∈ st.logs, p.2 ≠ Status.processing) →
      ∀ p ∈ (runLoop es ss envs flag emails idx st).logs, p.2 ≠ Status.processing := by
  intro emails
  induction emails with
  | nil => intro idx st h; simpa [runLoop] using h
  | cons e rest ih =>
    intro idx st h
    by_cases hf : flag idx
    · simp only [runLoop, hf, if_true]
      apply ih
      intro p hp
      rcases List.mem_append.mp hp with hp1 | hp2
      · exact h p hp1
      · have hp3 : p = (e, (process es ss (envs idx) st.w st.driver
            ((idx == 0) || (st.driver == none))).status) := by simpa using hp2
        rw [hp3]
        exact (process_spec es ss (envs idx) st.w st.driver
          ((idx == 0) || (st.driver == none))).1
    · simp only [runLoop, hf, if_false]
      exact h

lemma runLoop_prog (es ss : List String) (envs : Nat → JobEnv)
    (flag : Nat → Bool) :
    ∀ (emails : List String) (idx : Nat) (st : RunSt),
      st.prog = (List.range st.logs.length).map (fun k => k + 1) →
      idx = st.logs.length →
      (runLoop es ss envs flag emails idx st).prog =
        (List.range (runLoop es ss envs flag emails idx st).logs.length).map
          (fun k => k + 1) := by
  intro emails
  induction emails with
  | nil => intro idx st h1 h2; simpa [runLoop] using h1
  | cons e rest ih =>
    intro idx st h1 h2
    by_cases hf : flag idx
    · simp only [runLoop, hf, if_true]
      apply ih
      · simp only [List.length_append, List.length_cons, List.length_nil]
        rw [h1, h2, List.range_succ]
        simp
      · simp [h2]
    · simp only [runLoop, hf, if_false]
      exact h1

lemma runLoop_quits (es ss : List String) (envs : Nat → JobEnv)
    (flag : Nat → Bool) :
    ∀ (emails : List String) (idx : Nat) (st : RunSt),
      (∀ j, j ∈ st.w.quit ↔ j ∈ quitsIn st.tr) →
      (quitsIn st.tr).Nodup →
      (∀ j, j ∈ (runLoop es ss envs flag emails idx st).w.quit ↔
        j ∈ quitsIn (runLoop es ss envs flag emails idx st).tr) ∧
      (quitsIn (runLoop es ss envs flag emails idx st).tr).Nodup := by
  intro emails
  induction emails with
  | nil => intro idx st h1 h2; exact ⟨by simpa [runLoop] using h1, by simpa [runLoop] using h2⟩
  | cons e rest ih =>
    intro idx st h1 h2
    by_cases hf : flag idx
    · simp only [runLoop, hf, if_true]
      obtain ⟨-, hiff, hfresh, hlen, -⟩ := process_spec es ss (envs idx) st.w
        st.driver ((idx == 0) || (st.driver == none))
      apply ih
      · intro j
        rw [hiff j, quitsIn_append, List.mem_append]
        rw [h1 j]
        exact Or.comm
      · rw [quitsIn_append, List.nodup_append]
        refine ⟨h2, nodup_of_len_le_one hlen, ?_⟩
        intro j hj hj2
        exact absurd ((h1 j).mpr hj) (hfresh j hj2)
    · simp only [runLoop, hf, if_false]
      exact ⟨h1, h2⟩

lemma cleanup_trace_none (st : RunSt) (total : Nat) (cv : Bool)
    (hd : st.driver = none) : (cleanup st total cv).trace = st.tr := by
  simp [cleanup, hd]

lemma cleanup_trace_valid (st : RunSt) (total : Nat) (cv : Bool) (i : Nat)
    (hd : st.driver = some i) (hv : dvalidSome st.w i cv = true) :
    (cleanup st total cv).trace = st.tr ++ [Ev.quitEv i] := by
  simp [cleanup, hd, hv]

lemma cleanup_trace_invalid (st : RunSt) (total : Nat) (cv : Bool) (i : Nat)
    (hd : st.driver = some i) (hv : dvalidSome st.w i cv = false) :
    (cleanup st total cv).trace = st.tr := by
  simp [cleanup, hd, hv]

/-- C8: on every exit path of the processing loop the cleanup phase of
`run_automation` runs; a handle held at loop exit that is still valid (not
quit so far and alive) is quit there, exactly once — the full run's quit
events carry pairwise distinct session ids, so no session is ever quit
twice — and a handle that is absent, dead, or already quit is not quit in
cleanup.  (In the embedding the loop body is a total function, so the
unhandled-exception exit path of src/main.py line 490 has no separate
representative; every modelled exit reaches the cleanup, mirroring the
`finally` at line 492.) -/
theorem cleanup_single_termination (es ss : List String) (envs : Nat → JobEnv)
    (flag : Nat → Bool) (emails : List String) (cleanupValid : Bool) :
    (quitsIn (run_automation es ss envs flag emails cleanupValid).trace).Nodup ∧
    (∀ i, (run_automation es ss envs flag emails cleanupValid).heldAtExit = some i →
      cleanupValid = true →
      i ∉ quitsIn (run_automation es ss envs flag emails cleanupValid).loopTrace →
      (run_automation es ss envs flag emails cleanupValid).trace =
        (run_automation es ss envs flag emails cleanupValid).loopTrace
          ++ [Ev.quitEv i]) ∧
    ((run_automation es ss envs flag emails cleanupValid).heldAtExit = none →
      (run_automation es ss envs flag emails cleanupValid).trace =
        (run_automation es ss envs flag emails cleanupValid).loopTrace) ∧
    (∀ i, (run_automation es ss envs flag emails cleanupValid).heldAtExit = some i →
      i ∈ quitsIn (run_automation es ss envs flag emails cleanupValid).loopTrace →
      (run_automation es ss envs flag emails cleanupValid).trace =
        (run_automation es ss envs flag emails cleanupValid).loopTrace) ∧
    (cleanupValid = false →
      (run_automation es ss envs flag emails cleanupValid).trace =
        (run_automation es ss envs flag emails cleanupValid).loopTrace) := by
  have hinv := runLoop_quits es ss envs flag emails 0 initSt
    (by intro j; simp [initSt, quitsIn]) (by simp [initSt, quitsIn])
  obtain ⟨hiff, hnd⟩ := hinv
  obtain ⟨-, -, -, -, -, hheld, hloop⟩ :=
    cleanup_fields (runLoop es ss envs flag emails 0 initSt) emails.length
      cleanupValid
  rw [show (run_automation es ss envs flag emails cleanupValid) =
    cleanup (runLoop es ss envs flag emails 0 initSt) emails.length cleanupValid
    from rfl] at *
  set st := runLoop es ss envs flag emails 0 initSt with hst
  refine ⟨?_, ?_, ?_, ?_, ?_⟩
  · cases hd : st.driver with
    | none => rw [cleanup_trace_none st emails.length cleanupValid hd]; exact hnd
    | some i =>
      by_cases hv : dvalidSome st.w i cleanupValid
      · rw [cleanup_trace_valid st emails.length cleanupValid i hd hv]
        rw [quitsIn_append, List.nodup_append]
        refine ⟨hnd, by simp [quitsIn], ?_⟩
        intro j hj hj2
        have hji : j = i := by simpa [quitsIn] using hj2
        subst hji
        have hni : j ∉ st.w.quit := (dvalidSome_true hv).1
        exact absurd ((hiff j).mpr hj) hni
      · rw [cleanup_trace_invalid st emails.length cleanupValid i hd
          (Bool.eq_false_iff.mpr hv)]
        exact hnd
  · intro i hi hcv hni
    rw [hheld] at hi
    rw [hloop] at hni
    have hv : dvalidSome st.w i cleanupValid = true := by
      have hmem : i ∉ st.w.quit := fun hmem => hni ((hiff i).mp hmem)
      simp [dvalidSome, hmem, hcv]
    rw [cleanup_trace_valid st emails.length cleanupValid i hi hv, hloop]
  · intro hnone
    rw [hheld] at hnone
    rw [cleanup_trace_none st emails.length cleanupValid hnone, hloop]
  · intro i hi hmem
    rw [hheld] at hi
    rw [hloop] at hmem
    have hv : dvalidSome st.w i cleanupValid = false := by
      have hq : i ∈ st.w.quit := (hiff i).mpr hmem
      simp [dvalidSome, hq]
    rw [cleanup_trace_invalid st emails.length cleanupValid i hi hv, hloop]
  · intro hcv
    subst hcv
    cases hd : st.driver with
    | none => rw [cleanup_trace_none st emails.length false hd, hloop]
    | some i =>
      rw [cleanup_trace_invalid st emails.length false i hd (by simp [dvalidSome]),
        hloop]

/-- C8 witness: a concrete one-job run holds session 0 at loop exit, never
quit it during the loop, and the cleanup phase quits it exactly once. -/
theorem cleanup_single_termination_witness :
    (run_automation ["a"] ["b"] (fun _ => baseEnv) (fun _ => true)
      ["x@y"] true).trace =
      (run_automation ["a"] ["b"] (fun _ => baseEnv) (fun _ => true)
        ["x@y"] true).loopTrace ++ [Ev.quitEv 0] :=
  (cleanup_single_termination ["a"] ["b"] (fun _ => baseEnv) (fun _ => true)
    ["x@y"] true).2.1 0 (by decide) rfl (by decide)

/-- C2 counterexample: in a two-job run cancelled after the first job, one
Outcome Record is appended, yet the final summary displays Total Processed
= 2 (src/main.py line 508 shows `total_emails`, the input length), which
differs from the record count — so the summary total is not derived from
the Outcome Record sequence. -/
theorem summary_total_drifts_from_records :
    (run_automation ["a"] ["b"] (fun _ => baseEnv) (fun k => k == 0)
      ["a@x.com", "b@x.com"] true).totalDisplayed = 2 ∧
    (run_automation ["a"] ["b"] (fun _ => baseEnv) (fun k => k == 0)
      ["a@x.com", "b@x.com"] true).logs.length = 1 ∧
    (run_automation ["a"] ["b"] (fun _ => baseEnv) (fun k => k == 0)
      ["a@x.com", "b@x.com"] true).totalDisplayed ≠
      (run_automation ["a"] ["b"] (fun _ => baseEnv) (fun k => k == 0)
        ["a@x.com", "b@x.com"] true).logs.length := by
  refine ⟨by decide, by decide, by decide⟩

/-- C2 amended: in every run, success count plus failure count equals the
number of Outcome Records appended, which is at most the number of jobs,
with equality exactly when every flag read during the run was true (no
cancellation); the loop-tracked counters agree with the counts computed
from the record sequence; but the summary's Total Processed is the input
length `emails.length`, not the record count. -/
theorem batch_counts_invariant (es ss : List String) (envs : Nat → JobEnv)
    (flag : Nat → Bool) (emails : List String) (cleanupValid : Bool) :
    (run_automation es ss envs flag emails cleanupValid).succ +
        (run_automation es ss envs flag emails cleanupValid).fails =
      (run_automation es ss envs flag emails cleanupValid).logs.length ∧
    (run_automation es ss envs flag emails cleanupValid).logs.length ≤
      emails.length ∧
    ((run_automation es ss envs flag emails cleanupValid).logs.length =
        emails.length ↔ ∀ k < emails.length, flag k = true) ∧
    (run_automation es ss envs flag emails cleanupValid).succ =
      countSucc (run_automation es ss envs flag emails cleanupValid).logs ∧
    (run_automation es ss envs flag emails cleanupValid).fails =
      countFail (run_automation es ss envs flag emails cleanupValid).logs ∧
    (run_automation es ss envs flag emails cleanupValid).totalDisplayed =
      emails.length := by
  obtain ⟨hlogs, hsucc, hfails, htot, -, -, -⟩ :=
    cleanup_fields (runLoop es ss envs flag emails 0 initSt) emails.length
      cleanupValid
  rw [show (run_automation es ss envs flag emails cleanupValid) =
    cleanup (runLoop es ss envs flag emails 0 initSt) emails.length cleanupValid
    from rfl] at *
  set st := runLoop es ss envs flag emails 0 initSt with hst
  obtain ⟨hcs, hcf⟩ := runLoop_counts es ss envs flag emails 0 initSt
    (by simp [initSt, countSucc]) (by simp [initSt, countFail])
  have hlen : st.logs.length = procLen flag 0 emails.length := by
    have := runLoop_logs_len es ss envs flag emails 0 initSt
    simpa [initSt] using this
  rw [hlogs, hsucc, hfails, htot]
  refine ⟨?_, ?_, ?_, ?_, ?_, rfl⟩
  · rw [hcs, hcf]
    exact countSucc_add_countFail st.logs
  · rw [hlen]
    exact procLen_le flag emails.length 0
  · rw [hlen]
    rw [procLen_eq_iff flag emails.length 0]
    constructor
    · intro h k hk
      simpa using h k hk
    · intro h k hk
      simpa using h k hk
  · exact hcs
  · exact hcf

lemma procLen_cancel (flag : Nat → Bool) (i : Nat)
    (h1 : ∀ j, j ≤ i → flag j = true) (h2 : flag (i + 1) = false) :
    ∀ (n idx : Nat), idx ≤ i + 1 → procLen flag idx n = min (i + 1 - idx) n := by
  intro n
  induction n with
  | zero => intro idx hidx; simp [procLen]
  | succ m ih =>
    intro idx hidx
    by_cases hle : idx ≤ i
    · have hf : flag idx = true := h1 idx hle
      simp only [procLen, hf, if_true]
      rw [ih (idx + 1) (by omega)]
      omega
    · have hidx2 : idx = i + 1 := by omega
      subst hidx2
      have hp : procLen flag (i + 1) (m + 1) = 0 := by simp [procLen, h2]
      rw [hp]
      omega

/-- C5: if the running flag reads true up to job `i` and false at the next
poll (the flag was cleared while job `i` ran), then exactly
`min (i+1) emails.length` Outcome Records are appended — job `i` completes
and is kept, job `i+1` is never started; every appended record carries a
finished status (never `processing`); a progress update `idx+1` was
emitted for exactly the processed jobs; and the counters account for every
appended record. -/
theorem cancellation_boundary_behavior (es ss : List String)
    (envs : Nat → JobEnv) (flag : Nat → Bool) (emails : List String)
    (i : Nat) (cleanupValid : Bool)
    (h1 : ∀ j, j ≤ i → flag j = true) (h2 : flag (i + 1) = false) :
    (run_automation es ss envs flag emails cleanupValid).logs.length =
      min (i + 1) emails.length ∧
    (∀ p ∈ (run_automation es ss envs flag emails cleanupValid).logs,
      p.2 ≠ Status.processing) ∧
    (run_automation es ss envs flag emails cleanupValid).prog =
      (List.range
        (run_automation es ss envs flag emails cleanupValid).logs.length).map
        (fun k => k + 1) ∧
    (run_automation es ss envs flag emails cleanupValid).succ +
        (run_automation es ss envs flag emails cleanupValid).fails =
      (run_automation es ss envs flag emails cleanupValid).logs.length := by
  obtain ⟨hlogs, hsucc, hfails, -, hprog, -, -⟩ :=
    cleanup_fields (runLoop es ss envs flag emails 0 initSt) emails.length
      cleanupValid
  rw [show (run_automation es ss envs flag emails cleanupValid) =
    cleanup (runLoop es ss envs flag emails 0 initSt) emails.length cleanupValid
    from rfl] at *
  set st := runLoop es ss envs flag emails 0 initSt with hst
  obtain ⟨hcs, hcf⟩ := runLoop_counts es ss envs flag emails 0 initSt
    (by simp [initSt, countSucc]) (by simp [initSt, countFail])
  have hlen : st.logs.length = min (i + 1) emails.length := by
    have ha := runLoop_logs_len es ss envs flag emails 0 initSt
    have hb := procLen_cancel flag i h1 h2 emails.length 0 (by omega)
    rw [← hst] at ha
    rw [ha, hb]
    simp [initSt]
  rw [hlogs, hsucc, hfails, hprog]
  refine ⟨hlen, ?_, ?_, ?_⟩
  · exact runLoop_statuses es ss envs flag emails 0 initSt (by simp [initSt])
  · exact runLoop_prog es ss envs flag emails 0 initSt (by simp [initSt])
      (by simp [initSt])
  · rw [hcs, hcf]
    exact countSucc_add_countFail st.logs

/-- C5 witness: clearing the flag after job 0 of a two-job run leaves
exactly one Outcome Record. -/
theorem cancellation_boundary_behavior_witness :
    (run_automation ["a"] ["b"] (fun _ => baseEnv) (fun j => j == 0)
      ["a@x.com", "b@x.com"] true).logs.length =
      min (0 + 1) (["a@x.com", "b@x.com"] : List String).length :=
  (cancellation_boundary_behavior ["a"] ["b"] (fun _ => baseEnv)
    (fun j => j == 0) ["a@x.com", "b@x.com"] 0 true
    (fun j hj => by simp [Nat.le_zero.mp hj]) (by decide)).1

lemma run_length_no_cancel (es ss : List String) (envs : Nat → JobEnv)
    (emails : List String) (cv : Bool) :
    (run_automation es ss envs (fun _ => true) emails cv).logs.length =
      emails.length := by
  obtain ⟨hlogs, -, -, -, -, -, -⟩ :=
    cleanup_fields (runLoop es ss envs (fun _ => true) emails 0 initSt)
      emails.length cv
  rw [show run_automation es ss envs (fun _ => true) emails cv =
    cleanup (runLoop es ss envs (fun _ => true) emails 0 initSt) emails.length cv
    from rfl, hlogs]
  rw [runLoop_logs_len es ss envs (fun _ => true) emails 0 initSt,
    procLen_all_true]
  simp [initSt]

/-- C3: when the session is valid at job start but navigation fails (the
initial `driver.get` raises, or the refresh and its fallback `driver.get`
both raise), the executor creates exactly one replacement session and
retries navigation on it exactly once; if the retry also raises, the job's
record is failed, the executor returns the replacement handle immediately
— no element lookup, typing or clicking is attempted and no further
session is created — and (last conjunct) the loop still appends a record
for every job of an uncancelled batch, i.e. the batch continues. -/
theorem nav_failure_single_retry_then_fail (es ss : List String)
    (env : JobEnv) (w : World) (i : Nat) (f : Bool)
    (hval : dvalidSome w i env.validAtStart = true)
    (hnav : navFailedB env f = true)
    (hc : env.create2 = CreateRes.ok)
    (hr : env.navRetry.isSome = true) :
    (process es ss env w (some i) f).status = Status.failed ∧
    (process es ss env w (some i) f).driver = some w.nextId ∧
    mainSteps (process es ss env w (some i) f).trace = [] ∧
    createsIn (process es ss env w (some i) f).trace = [w.nextId] ∧
    getsIn (process es ss env w (some i) f).trace = [i, w.nextId] ∧
    (∀ (envs : Nat → JobEnv) (emails : List String),
      (run_automation es ss envs (fun _ => true) emails true).logs.length =
        emails.length) := by
  have hre : process es ss env w (some i) f = navPhase es ss env w i f false [] := by
    simp [process, hval]
  obtain ⟨k2, h2⟩ := Option.isSome_iff_exists.mp hr
  have hbatch : ∀ (envs : Nat → JobEnv) (emails : List String),
      (run_automation es ss envs (fun _ => true) emails true).logs.length =
        emails.length :=
    fun envs emails => run_length_no_cancel es ss envs emails true
  cases f with
  | true =>
    obtain ⟨k1, h1⟩ := Option.isSome_iff_exists.mp (by simpa [navFailedB] using hnav)
    have hre2 : process es ss env w (some i) true =
        recover es ss env w i false true [Ev.getUrl i] := by
      rw [hre]; simp [navPhase, h1]
    by_cases hdq : dvalidSome w i env.validAtNavFail
    · have hre3 : recover es ss env w i false true [Ev.getUrl i] =
          ⟨Status.failed, some w.nextId, ⟨w.nextId + 1, i :: w.quit⟩,
           [Ev.getUrl i, Ev.quitEv i, Ev.create w.nextId, Ev.getUrl w.nextId],
           some true⟩ := by
        simp [recover, hdq, hc, h2]
      rw [hre2, hre3]
      exact ⟨rfl, rfl, by simp [mainSteps], by simp [createsIn],
        by simp [getsIn], hbatch⟩
    · have hre3 : recover es ss env w i false true [Ev.getUrl i] =
          ⟨Status.failed, some w.nextId, ⟨w.nextId + 1, w.quit⟩,
           [Ev.getUrl i, Ev.create w.nextId, Ev.getUrl w.nextId],
           some true⟩ := by
        simp [recover, hdq, hc, h2]
      rw [hre2, hre3]
      exact ⟨rfl, rfl, by simp [mainSteps], by simp [createsIn],
        by simp [getsIn], hbatch⟩
  | false =>
    obtain ⟨hra, hrb⟩ := Bool.and_eq_true_iff.mp (by simpa [navFailedB] using hnav)
    obtain ⟨ka, h1a⟩ := Option.isSome_iff_exists.mp hra
    obtain ⟨kb, h1b⟩ := Option.isSome_iff_exists.mp hrb
    have hre2 : process es ss env w (some i) false =
        recover es ss env w i false false [Ev.refresh i, Ev.getUrl i] := by
      rw [hre]; simp [navPhase, h1a, h1b]
    by_cases hdq : dvalidSome w i env.validAtNavFail
    · have hre3 : recover es ss env w i false false [Ev.refresh i, Ev.getUrl i] =
          ⟨Status.failed, some w.nextId, ⟨w.nextId + 1, i :: w.quit⟩,
           [Ev.refresh i, Ev.getUrl i, Ev.quitEv i, Ev.create w.nextId,
            Ev.getUrl w.nextId], some false⟩ := by
        simp [recover, hdq, hc, h2]
      rw [hre2, hre3]
      exact ⟨rfl, rfl, by simp [mainSteps], by simp [createsIn],
        by simp [getsIn], hbatch⟩
    · have hre3 : recover es ss env w i false false [Ev.refresh i, Ev.getUrl i] =
          ⟨Status.failed, some w.nextId, ⟨w.nextId + 1, w.quit⟩,
           [Ev.refresh i, Ev.getUrl i, Ev.create w.nextId, Ev.getUrl w.nextId],
           some false⟩ := by
        simp [recover, hdq, hc, h2]
      rw [hre2, hre3]
      exact ⟨rfl, rfl, by simp [mainSteps], by simp [createsIn],
        by simp [getsIn], hbatch⟩

/-- C3 witness: with session 0 valid, `driver.get` raising and the retry
on the recreated session 1 raising too, the job is failed. -/
theorem nav_failure_single_retry_then_fail_witness :
    (process ["a"] ["b"]
      { baseEnv with navGet1 := some ExKind.other, navRetry := some ExKind.other }
      ⟨1, []⟩ (some 0) true).status = Status.failed :=
  (nav_failure_single_retry_then_fail ["a"] ["b"]
    { baseEnv with navGet1 := some ExKind.other, navRetry := some ExKind.other }
    ⟨1, []⟩ 0 true (by decide) (by decide) rfl (by decide)).1

/-- C4 counterexample: when navigation fails for a session that still
answers as valid, the executor itself calls `driver.quit()` on it
(src/main.py 315-317) before creating the replacement — so the executor
does terminate a session handle. -/
theorem executor_quits_on_nav_failure :
    Ev.quitEv 0 ∈ (process ["a"] ["b"]
      { baseEnv with navGet1 := some ExKind.other }
      ⟨1, []⟩ (some 0) true).trace := by
  decide

/-- C4 amended: the executor performs at most one termination per job, and
only on a session whose navigation it attempted in that job, immediately
as part of navigation-failure recovery; on every path where navigation was
not attempted or did not fail, the executor quits nothing. -/
theorem executor_quit_policy (es ss : List String) (env : JobEnv) (w : World)
    (d : Option Nat) (f : Bool) :
    (quitsIn (process es ss env w d f).trace).length ≤ 1 ∧
    (∀ j ∈ quitsIn (process es ss env w d f).trace,
      Ev.getUrl j ∈ (process es ss env w d f).trace ∨
      Ev.refresh j ∈ (process es ss env w d f).trace) ∧
    (∀ uf, (process es ss env w d f).usedFirst = some uf →
      navFailedB env uf = false → quitsIn (process es ss env w d f).trace = []) ∧
    ((process es ss env w d f).usedFirst = none →
      quitsIn (process es ss env w d f).trace = []) := by
  obtain ⟨-, -, -, hlen, hnavm⟩ := process_spec es ss env w d f
  have hnoquit : ∀ (w0 : World) (i0 : Nat) (uf0 : Bool) (tr : List Ev),
      quitsIn tr = [] → navFailedB env uf0 = false →
      quitsIn (navPhase es ss env w0 i0 uf0 false tr).trace = [] := by
    intro w0 i0 uf0 tr hq hnf
    obtain ⟨-, -, -, hqt, -, -⟩ := navPhase_spec es ss env w0 i0 uf0 false tr
    rw [hqt, hq, hnf]
    simp
  have hnoquit2 : ∀ (w0 : World) (i0 : Nat) (uf0 : Bool) (tr : List Ev),
      quitsIn tr = [] → navFailedB env uf0 = false →
      quitsIn (navPhase es ss env w0 i0 uf0 true tr).trace = [] := by
    intro w0 i0 uf0 tr hq hnf
    obtain ⟨-, -, -, hqt, -, -⟩ := navPhase_spec es ss env w0 i0 uf0 true tr
    rw [hqt, hq, hnf]
    simp
  refine ⟨hlen, hnavm, ?_, ?_⟩
  · intro uf hufirst hnf
    rw [process_usedFirst es ss env w d f] at hufirst
    by_cases hv : is_driver_valid w d env.validAtStart
    · rw [if_pos hv] at hufirst
      have huf : uf = f := by
        have := Option.some.inj hufirst
        exact this.symm
      subst huf
      cases d with
      | none => exact absurd hv (by simp [is_driver_valid])
      | some i =>
        have hvd : dvalidSome w i env.validAtStart = true := by
          simpa [is_driver_valid] using hv
        have hre : process es ss env w (some i) uf =
            navPhase es ss env w i uf false [] := by
          simp [process, hvd]
        rw [hre]
        exact hnoquit w i uf [] (by simp [quitsIn]) hnf
    · rw [if_neg hv] at hufirst
      cases hcr : env.create1 with
      | ok =>
        rw [hcr] at hufirst
        have huf : uf = true := by
          have := Option.some.inj hufirst
          exact this.symm
        subst huf
        cases d with
        | none =>
          have hre : process es ss env w none f =
              navPhase es ss env ⟨w.nextId + 1, w.quit⟩ w.nextId true true
                [Ev.create w.nextId] := by
            simp [process, startCreate, hcr]
          rw [hre]
          exact hnoquit2 ⟨w.nextId + 1, w.quit⟩ w.nextId true [Ev.create w.nextId]
            (by simp [quitsIn]) hnf
        | some i =>
          have hvd : dvalidSome w i env.validAtStart = false := by
            have := Bool.eq_false_iff.mpr (by simpa [is_driver_valid] using hv)
            simpa [is_driver_valid] using this
          have hre : process es ss env w (some i) f =
              navPhase es ss env ⟨w.nextId + 1, w.quit⟩ w.nextId true true
                [Ev.create w.nextId] := by
            simp [process, startCreate, hvd, hcr]
          rw [hre]
          exact hnoquit2 ⟨w.nextId + 1, w.quit⟩ w.nextId true [Ev.create w.nextId]
            (by simp [quitsIn]) hnf
      | fail k =>
        rw [hcr] at hufirst
        cases hufirst
  · intro hufirst
    rw [process_usedFirst es ss env w d f] at hufirst
    by_cases hv : is_driver_valid w d env.validAtStart
    · rw [if_pos hv] at hufirst
      cases hufirst
    · rw [if_neg hv] at hufirst
      cases hcr : env.create1 with
      | ok => rw [hcr] at hufirst; cases hufirst
      | fail k =>
        cases d with
        | none =>
          have hre : process es ss env w none f =
              ⟨Status.failed, none, w, [Ev.createFail], none⟩ := by
            simp [process, startCreate, hcr]
          rw [hre]
          simp [quitsIn]
        | some i =>
          have hvd : dvalidSome w i env.validAtStart = false := by
            have := Bool.eq_false_iff.mpr (by simpa [is_driver_valid] using hv)
            simpa [is_driver_valid] using this
          have hre : process es ss env w (some i) f =
              ⟨Status.failed, some i, w, [Ev.createFail], none⟩ := by
            simp [process, startCreate, hvd, hcr]
          rw [hre]
          simp [quitsIn]

/-- C4 amended witness: on a job whose navigation succeeds, the executor
quits nothing. -/
theorem executor_quit_policy_witness :
    quitsIn (process ["a"] ["b"] baseEnv ⟨1, []⟩ (some 0) true).trace = [] :=
  (executor_quit_policy ["a"] ["b"] baseEnv ⟨1, []⟩ (some 0) true).2.2.1 true
    (by decide) (by decide)

/-- C6 counterexample: with session creation raising on every job, a
two-job run still processes both jobs — each creation failure is caught
inside the executor (src/main.py 388), the job is merely marked failed,
and the run is not aborted, contradicting the claimed whole-run abort. -/
theorem creation_failure_run_continues :
    (run_automation ["a"] ["b"]
      (fun _ => { baseEnv with create1 := CreateRes.fail ExKind.other })
      (fun _ => true) ["a@x.com", "b@x.com"] true).logs =
      [("a@x.com", Status.failed), ("b@x.com", Status.failed)] ∧
    (run_automation ["a"] ["b"]
      (fun _ => { baseEnv with create1 := CreateRes.fail ExKind.other })
      (fun _ => true) ["a@x.com", "b@x.com"] true).trace =
      [Ev.createFail, Ev.createFail] := by
  exact ⟨by decide, by decide⟩

/-- C6 amended: a session-creation failure is caught at the job boundary:
the job's record is marked failed, the handle, world and trace show no
further activity for that job, and the executor returns normally — so the
loop proceeds and an uncancelled batch still appends a record for every
job; the run is never aborted by a creation failure. -/
theorem creation_failure_fails_job_only (es ss : List String) (env : JobEnv)
    (w : World) (d : Option Nat) (f : Bool) (k : ExKind)
    (h1 : is_driver_valid w d env.validAtStart = false)
    (h2 : env.create1 = CreateRes.fail k) :
    (process es ss env w d f).status = Status.failed ∧
    (process es ss env w d f).driver = d ∧
    (process es ss env w d f).world = w ∧
    (process es ss env w d f).trace = [Ev.createFail] ∧
    (∀ (envs : Nat → JobEnv) (emails : List String),
      (run_automation es ss envs (fun _ => true) emails true).logs.length =
        emails.length) := by
  have hbatch : ∀ (envs : Nat → JobEnv) (emails : List String),
      (run_automation es ss envs (fun _ => true) emails true).logs.length =
        emails.length :=
    fun envs emails => run_length_no_cancel es ss envs emails true
  cases d with
  | none =>
    have hre : process es ss env w none f =
        ⟨Status.failed, none, w, [Ev.createFail], none⟩ := by
      simp [process, startCreate, h2]
    rw [hre]
    exact ⟨rfl, rfl, rfl, rfl, hbatch⟩
  | some i =>
    have hvd : dvalidSome w i env.validAtStart = false := by
      simpa [is_driver_valid] using h1
    have hre : process es ss env w (some i) f =
        ⟨Status.failed, some i, w, [Ev.createFail], none⟩ := by
      simp [process, startCreate, hvd, h2]
    rw [hre]
    exact ⟨rfl, rfl, rfl, rfl, hbatch⟩

/-- C6 amended witness: a concrete creation failure fails only that job. -/
theorem creation_failure_fails_job_only_witness :
    (process ["a"] ["b"] { baseEnv with create1 := CreateRes.fail ExKind.other }
      ⟨0, []⟩ none true).status = Status.failed :=
  (creation_failure_fails_job_only ["a"] ["b"]
    { baseEnv with create1 := CreateRes.fail ExKind.other } ⟨0, []⟩ none true
    ExKind.other (by decide) rfl).1

/-- C7 counterexample: a page-load timeout during navigation
(`TimeoutException` from `driver.get`) is caught by the navigation handler
at src/main.py 312, which quits the still-valid session and replaces it —
here the job fails with only timeouts raised, yet session 0 is quit and
the executor returns the different handle 1, contradicting "not quit and
not replaced". -/
theorem nav_timeout_replaces_session :
    (process ["a"] ["b"]
      { baseEnv with navGet1 := some ExKind.timeout, navRetry := some ExKind.timeout }
      ⟨1, []⟩ (some 0) true).status = Status.failed ∧
    Ev.quitEv 0 ∈ (process ["a"] ["b"]
      { baseEnv with navGet1 := some ExKind.timeout, navRetry := some ExKind.timeout }
      ⟨1, []⟩ (some 0) true).trace ∧
    (process ["a"] ["b"]
      { baseEnv with navGet1 := some ExKind.timeout, navRetry := some ExKind.timeout }
      ⟨1, []⟩ (some 0) true).driver = some 1 := by
  exact ⟨by decide, by decide, by decide⟩

lemma mainPhase_interaction_fail (es ss : List String) (env : JobEnv)
    (w : World) (i : Nat) (uf : Bool) (tr : List Ev)
    (hq : quitsIn tr = [])
    (hfound : (find_element_by_selectors env.lookup1 es).isSome = true)
    (hfail : env.typeRes = some ExKind.timeout ∨
      (env.typeRes = none ∧
        (find_element_by_selectors env.lookup2 ss).isSome = true ∧
        env.clickRes = some ExKind.timeout)) :
    (mainPhase es ss env w i uf tr).status = Status.failed ∧
    (mainPhase es ss env w i uf tr).driver = some i ∧
    (mainPhase es ss env w i uf tr).world = w ∧
    quitsIn (mainPhase es ss env w i uf tr).trace = [] := by
  obtain ⟨e1, he1⟩ := Option.isSome_iff_exists.mp hfound
  rcases hfail with ht | ⟨ht, hf2, hcl⟩
  · have hre : mainPhase es ss env w i uf tr =
        ⟨Status.failed, some i, w, tr ++ [Ev.findEmailStep, Ev.typeStep],
         some uf⟩ := by
      simp [mainPhase, he1, ht]
    rw [hre]
    exact ⟨rfl, rfl, rfl, by simp [hq, quitsIn]⟩
  · obtain ⟨e2, he2⟩ := Option.isSome_iff_exists.mp hf2
    have hre : mainPhase es ss env w i uf tr =
        ⟨Status.failed, some i, w,
         tr ++ [Ev.findEmailStep, Ev.typeStep, Ev.findSubmitStep, Ev.clickStep],
         some uf⟩ := by
      simp [mainPhase, he1, ht, he2, hcl]
    rw [hre]
    exact ⟨rfl, rfl, rfl, by simp [hq, quitsIn]⟩

/-- C7 amended: a timeout raised after a successful navigation — while
typing the value or clicking the submit control — fails the job but leaves
the session untouched: the same handle is returned, the world is
unchanged and no quit occurs; a timeout during navigation instead enters
the recovery path and replaces the session (see the counterexample). -/
theorem interaction_timeout_keeps_session (es ss : List String) (env : JobEnv)
    (w : World) (i : Nat) (f : Bool)
    (hval : dvalidSome w i env.validAtStart = true)
    (hnav : navFailedB env f = false)
    (hfound : (find_element_by_selectors env.lookup1 es).isSome = true)
    (hfail : env.typeRes = some ExKind.timeout ∨
      (env.typeRes = none ∧
        (find_element_by_selectors env.lookup2 ss).isSome = true ∧
        env.clickRes = some ExKind.timeout)) :
    (process es ss env w (some i) f).status = Status.failed ∧
    (process es ss env w (some i) f).driver = some i ∧
    (process es ss env w (some i) f).world = w ∧
    quitsIn (process es ss env w (some i) f).trace = [] := by
  have hre : process es ss env w (some i) f = navPhase es ss env w i f false [] := by
    simp [process, hval]
  rw [hre]
  cases f with
  | true =>
    have h1 : env.navGet1 = none := by
      simp only [navFailedB, if_true] at hnav
      exact Option.not_isSome_iff_eq_none.mp (by simp [hnav])
    have hre2 : navPhase es ss env w i true false [] =
        mainPhase es ss env w i true [Ev.getUrl i] := by
      simp [navPhase, h1]
    rw [hre2]
    exact mainPhase_interaction_fail es ss env w i true [Ev.getUrl i]
      (by simp [quitsIn]) hfound hfail
  | false =>
    simp only [navFailedB, if_false, Bool.false_eq_true] at hnav
    cases h1 : env.refreshRes with
    | none =>
      have hre2 : navPhase es ss env w i false false [] =
          mainPhase es ss env w i false [Ev.refresh i] := by
        simp [navPhase, h1]
      rw [hre2]
      exact mainPhase_interaction_fail es ss env w i false [Ev.refresh i]
        (by simp [quitsIn]) hfound hfail
    | some ka =>
      have h2 : env.navGet2 = none := by
        rw [h1] at hnav
        simp only [Option.isSome_some, Bool.true_and] at hnav
        exact Option.not_isSome_iff_eq_none.mp (by simp [hnav])
      have hre2 : navPhase es ss env w i false false [] =
          mainPhase es ss env w i false [Ev.refresh i, Ev.getUrl i] := by
        simp [navPhase, h1, h2]
      rw [hre2]
      exact mainPhase_interaction_fail es ss env w i false
        [Ev.refresh i, Ev.getUrl i] (by simp [quitsIn]) hfound hfail

/-- C7 amended witness: a typing timeout fails the job and returns the
same session handle with no quit. -/
theorem interaction_timeout_keeps_session_witness :
    (process ["a"] ["b"] { baseEnv with typeRes := some ExKind.timeout }
      ⟨1, []⟩ (some 0) true).driver = some 0 :=
  (interaction_timeout_keeps_session ["a"] ["b"]
    { baseEnv with typeRes := some ExKind.timeout } ⟨1, []⟩ 0 true
    (by decide) (by decide) (by decide) (Or.inl rfl)).2.1

/-- C9: the effective `is_first_email` value — the flag in force when
navigation is attempted — equals the caller's flag when the incoming
session is valid at job start, is forced to true when the session is
absent or invalid and a replacement is created (src/main.py 292-297), and
there is no navigation at all when that creation fails.  Instantiated
with the Batch Runner's own flag `idx == 0 || driver == none`
(src/main.py 459), the effective value is true exactly when the job is
the first of the run or the session reference is absent or invalid at the
start of the job; a later job handed a valid (e.g. freshly recreated)
session gets an effective value of false again, so the forcing applies
only to the job that triggered recreation. -/
theorem effective_first_flag_eq (es ss : List String) (env : JobEnv)
    (w : World) (d : Option Nat) (f : Bool) (idx : Nat) :
    (process es ss env w d f).usedFirst =
      (if is_driver_valid w d env.validAtStart then some f
       else
         match env.create1 with
         | CreateRes.ok => some true
         | CreateRes.fail _ => none) ∧
    (process es ss env w d ((idx == 0) || (d == none))).usedFirst =
      (if is_driver_valid w d env.validAtStart then some (idx == 0)
       else
         match env.create1 with
         | CreateRes.ok => some true
         | CreateRes.fail _ => none) := by
  refine ⟨process_usedFirst es ss env w d f, ?_⟩
  rw [process_usedFirst es ss env w d ((idx == 0) || (d == none))]
  by_cases hv : is_driver_valid w d env.validAtStart
  · rw [if_pos hv, if_pos hv]
    cases d with
    | none => exact absurd hv (by simp [is_driver_valid])
    | some i =>
      have hbn : ((some i : Option Nat) == none) = false := rfl
      rw [hbn, Bool.or_false]
  · rw [if_neg hv, if_neg hv]

/-- C10: the executor can return an absent handle: concretely, when it
created the session itself, navigation failed, the old session was quit,
and creating the replacement raised a non-timeout exception, the outer
handler nulls the handle (src/main.py 392-397) and returns
`(failed, None)`; and the runner-facing consequence of an absent handle is
that the next job never refreshes — it forces session creation and, when
creation succeeds, a full navigation, proceeding into the submission steps
rather than failing outright. -/
theorem absent_handle_recreation :
    ((process ["a"] ["b"]
        { baseEnv with navGet1 := some ExKind.other, create2 := CreateRes.fail ExKind.other }
        ⟨0, []⟩ none true).driver = none ∧
      (process ["a"] ["b"]
        { baseEnv with navGet1 := some ExKind.other, create2 := CreateRes.fail ExKind.other }
        ⟨0, []⟩ none true).status = Status.failed ∧
      createsIn (process ["a"] ["b"]
        { baseEnv with navGet1 := some ExKind.other, create2 := CreateRes.fail ExKind.other }
        ⟨0, []⟩ none true).trace = [0]) ∧
    (∀ (es ss : List String) (env : JobEnv) (w : World) (b : Bool),
      (process es ss env w none b).usedFirst ≠ some false) ∧
    (∀ (es ss : List String) (env : JobEnv) (w : World) (b : Bool),
      env.create1 = CreateRes.ok →
      (process es ss env w none b).usedFirst = some true ∧
      Ev.create w.nextId ∈ (process es ss env w none b).trace) ∧
    (∀ (es ss : List String) (env : JobEnv) (w : World) (b : Bool),
      env.create1 = CreateRes.ok → env.navGet1 = none →
      Ev.findEmailStep ∈ (process es ss env w none b).trace) := by
  refine ⟨⟨by decide, by decide, by decide⟩, ?_, ?_, ?_⟩
  · intro es ss env w b
    rw [process_usedFirst es ss env w none b,
      if_neg (by simp [is_driver_valid])]
    cases hc : env.create1 <;> simp
  · intro es ss env w b hc
    have hre : process es ss env w none b =
        navPhase es ss env ⟨w.nextId + 1, w.quit⟩ w.nextId true true
          [Ev.create w.nextId] := by
      simp [process, startCreate, hc]
    rw [hre]
    obtain ⟨hu, -, ⟨ext, htr⟩, -, -, -⟩ :=
      navPhase_spec es ss env ⟨w.nextId + 1, w.quit⟩ w.nextId true true
        [Ev.create w.nextId]
    exact ⟨hu, by rw [htr]; simp⟩
  · intro es ss env w b hc hn
    have hre : process es ss env w none b =
        mainPhase es ss env ⟨w.nextId + 1, w.quit⟩ w.nextId true
          [Ev.create w.nextId, Ev.getUrl w.nextId] := by
      simp [process, startCreate, navPhase, hc, hn]
    rw [hre]
    obtain ⟨-, -, -, -, hmem, -⟩ :=
      mainPhase_spec es ss env ⟨w.nextId + 1, w.quit⟩ w.nextId true
        [Ev.create w.nextId, Ev.getUrl w.nextId]
    exact hmem

/-- C10 witness: with a handle that is `None`, the runner-forced creation
succeeds and a full navigation (not a refresh) is the effective mode. -/
theorem absent_handle_recreation_witness :
    (process ["a"] ["b"] baseEnv ⟨0, []⟩ none true).usedFirst = some true :=
  (absent_handle_recreation.2.2.1 ["a"] ["b"] baseEnv ⟨0, []⟩ true rfl).1

end EmailAgent
